import Mathlib

/-
Verification of the EMA-3in1 trading engine against its specification.

The engine's decision logic is shallowly embedded from the TypeScript
source.  JavaScript IEEE-754 numbers are modelled as exact rationals
(`ℚ`); `Math.floor` is `Int.floor`, `toFixed(0)` is rounding to the
nearest integer, and `toFixed(decimals)` used only for price string
formatting is dropped (prices are kept exact).  Division by zero follows
Lean's `0` convention; all theorems that depend on a quotient carry
positivity hypotheses on the denominator.  Narrative strings that the
source builds by interpolating numbers into fixed marker text are
modelled by their fixed marker text alone (the numbers are cosmetic).
-/

/-- Trend direction of the dominant (1H) timeframe. -/
inductive Direction where
  | UP
  | DOWN
  | NEUTRAL
deriving DecidableEq, Repr

/-- Actions a per-coin decision can carry (`finalAction` in the source). -/
inductive TAction where
  | HOLD
  | BUY
  | SELL
  | CLOSE
  | UPDATE_TPSL
deriving DecidableEq, Repr

/-- Position side as reported by the exchange (`posSide`). -/
inductive Side where
  | long
  | short
deriving DecidableEq, Repr

/-- One candlestick.  `ema15`/`ema60` are the attached derived fields;
`none` models an `undefined` field.  Prices and volume are rationals. -/
structure Candle where
  ts : Int
  o : ℚ
  h : ℚ
  l : ℚ
  c : ℚ
  vol : ℚ
  ema15 : Option ℚ
  ema60 : Option ℚ
deriving DecidableEq, Repr

/-- Placeholder candle used for (never exercised) out-of-range accesses. -/
def defaultCandle : Candle :=
  { ts := 0, o := 0, h := 0, l := 0, c := 0, vol := 0, ema15 := none, ema60 := none }

/-- Array access `candles[i]` (indices produced by the source are in range). -/
def getC (cs : List Candle) (i : ℕ) : Candle :=
  cs.getD i defaultCandle

/-- JavaScript truthiness of a possibly-undefined numeric field:
`undefined` and `0` are falsy. -/
def truthy : Option ℚ → Bool
  | none => false
  | some v => v ≠ 0

/-- JS comparison `a > b` on possibly-undefined fields: any comparison with
`undefined` (`NaN`) is false. -/
def ogt : Option ℚ → Option ℚ → Bool
  | some a, some b => b < a
  | _, _ => false

/-- JS comparison `a < b` on possibly-undefined fields. -/
def olt : Option ℚ → Option ℚ → Bool
  | some a, some b => a < b
  | _, _ => false

/-- JS comparison `a <= b` on possibly-undefined fields. -/
def oleq : Option ℚ → Option ℚ → Bool
  | some a, some b => a ≤ b
  | _, _ => false

/-- JS comparison `a >= b` on possibly-undefined fields. -/
def ogeq : Option ℚ → Option ℚ → Bool
  | some a, some b => b ≤ a
  | _, _ => false

/-- Does `pat` occur at the head of `s`? -/
def charsStartWith : List Char → List Char → Bool
  | [], _ => true
  | _ :: _, [] => false
  | a :: as, b :: bs => (a = b) && charsStartWith as bs

/-- Does `pat` occur anywhere in `s`? -/
def charsContain (pat : List Char) : List Char → Bool
  | [] => charsStartWith pat []
  | b :: rest => charsStartWith pat (b :: rest) || charsContain pat rest

/-- JavaScript `s.includes(pat)`. -/
def strContains (s pat : String) : Bool :=
  charsContain pat.data s.data

/-- Result of `analyze1HTrend`. -/
structure TrendResult where
  direction : Direction
  tsOut : Int
  description : String
deriving DecidableEq, Repr

/-- `analyze1HTrend` of the strict-EMA engine iterations
(src/unnamed/part_001 lines 58-97; identical in part_002 and part_010):
NEUTRAL on fewer than 100 candles or missing averages, otherwise
UP iff close > EMA60 and EMA15 > EMA60, DOWN iff both reversed. -/
def analyze1HTrend (cs : List Candle) : TrendResult :=
  if cs.length < 100 then ⟨Direction.NEUTRAL, 0, "数据不足"⟩
  else
    let latest := getC cs (cs.length - 1)
    if ¬(truthy latest.ema15 ∧ truthy latest.ema60) then
      ⟨Direction.NEUTRAL, 0, "指标计算中"⟩
    else
      let e15 := latest.ema15.getD 0
      let e60 := latest.ema60.getD 0
      let price := latest.c
      if price > e60 ∧ e15 > e60 then
        ⟨Direction.UP, latest.ts, "上涨 (价格>EMA60 & EMA15>EMA60)"⟩
      else if price < e60 ∧ e15 < e60 then
        ⟨Direction.DOWN, latest.ts, "下跌 (价格<EMA60 & EMA15<EMA60)"⟩
      else
        ⟨Direction.NEUTRAL, latest.ts, "震荡/均线纠缠"⟩

/-- `analyze1HTrend` of the src/services/aiService.ts iteration
(lines 80-123): UP iff EMA15 > EMA60 alone, DOWN iff EMA15 < EMA60 alone;
the close price only selects the strength wording. -/
def analyze1HTrendSvc (cs : List Candle) : TrendResult :=
  if cs.length < 100 then ⟨Direction.NEUTRAL, 0, "数据不足"⟩
  else
    let latest := getC cs (cs.length - 1)
    if ¬(truthy latest.ema15 ∧ truthy latest.ema60) then
      ⟨Direction.NEUTRAL, 0, "指标计算中"⟩
    else
      let e15 := latest.ema15.getD 0
      let e60 := latest.ema60.getD 0
      let isGold := e15 > e60
      let isDeath := e15 < e60
      let isYang := latest.c > latest.o
      let isYin := latest.c < latest.o
      if isGold then
        ⟨Direction.UP, latest.ts, if isYang then "上涨 (强势 / EMA金叉)" else "上涨 (回调中 / EMA金叉)"⟩
      else if isDeath then
        ⟨Direction.DOWN, latest.ts, if isYin then "下跌 (强势 / EMA死叉)" else "下跌 (反弹中 / EMA死叉)"⟩
      else
        ⟨Direction.NEUTRAL, latest.ts, "均线粘合/震荡"⟩

/-- A golden cross at index `i` (previous candle `ema15 <= ema60`, current
candle `ema15 > ema60`), as tested by the backward scan of `analyze3mEntry`. -/
def crossUpAt (cs : List Candle) (i : ℕ) : Bool :=
  oleq (getC cs (i - 1)).ema15 (getC cs (i - 1)).ema60 &&
    ogt (getC cs i).ema15 (getC cs i).ema60

/-- A death cross at index `i`, as tested by the short branch. -/
def crossDownAt (cs : List Candle) (i : ℕ) : Bool :=
  ogeq (getC cs (i - 1)).ema15 (getC cs (i - 1)).ema60 &&
    olt (getC cs i).ema15 (getC cs i).ema60

/-- Backward crossover scan of `analyze3mEntry`: starting at index `j` and
walking down while `j > 0`, return the first index satisfying `f`; give up
once the distance from `last` exceeds `TOLERANCE_CANDLES + 2 = 7` (the
candidate at that distance is still examined before the break fires). -/
def scanCrossAux (f : ℕ → Bool) (last : ℕ) : ℕ → Option ℕ
  | 0 => none
  | i + 1 =>
    if f (i + 1) then some (i + 1)
    else if 7 < last - (i + 1) then none
    else scanCrossAux f last i

/-- The stop-loss scan of the long branch: walk down from index `i` while
the candle is in the death zone (`ema15 <= ema60`), folding the minimum of
the lows into `acc`; at most `fuel` (150 in the source) candles are visited. -/
def scanZoneLow (cs : List Candle) : ℕ → ℕ → ℚ → ℚ
  | _, 0, acc => acc
  | i, fuel + 1, acc =>
    let c := getC cs i
    if oleq c.ema15 c.ema60 then
      let acc2 := if c.l < acc then c.l else acc
      match i with
      | 0 => acc2
      | i' + 1 => scanZoneLow cs i' fuel acc2
    else acc

/-- The stop-loss scan of the short branch: maximum of the highs over the
preceding gold-zone run. -/
def scanZoneHigh (cs : List Candle) : ℕ → ℕ → ℚ → ℚ
  | _, 0, acc => acc
  | i, fuel + 1, acc =>
    let c := getC cs i
    if ogeq c.ema15 c.ema60 then
      let acc2 := if acc < c.h then c.h else acc
      match i with
      | 0 => acc2
      | i' + 1 => scanZoneHigh cs i' fuel acc2
    else acc

/-- The candles visited by `scanZoneLow` (specification-side list used to
characterise the computed stop as a minimum). -/
def zoneList (cs : List Candle) : ℕ → ℕ → List Candle
  | _, 0 => []
  | i, fuel + 1 =>
    let c := getC cs i
    if oleq c.ema15 c.ema60 then
      c :: (match i with
            | 0 => []
            | i' + 1 => zoneList cs i' fuel)
    else []

/-- Result of `analyze3mEntry`. -/
structure EntryResult where
  signal : Bool
  action : TAction
  sl : ℚ
  reason : String
  structTag : String
deriving DecidableEq, Repr

/-- `analyze3mEntry` of the strict-EMA engine iterations
(src/unnamed/part_001 lines 99-223; identical logic in part_002 and
part_010): confirmed-cross detection with a 5-candle tolerance window; the
protective stop is the extreme of the immediately preceding opposite-regime
run (lowest low for longs, highest high for shorts, 150-candle lookback). -/
def analyze3mEntry (cs : List Candle) (dir : Direction) : EntryResult :=
  if cs.length < 100 then ⟨false, TAction.HOLD, 0, "数据不足", "未知"⟩
  else
    let curr := getC cs (cs.length - 1)
    if ¬(truthy curr.ema15 ∧ truthy curr.ema60) then
      ⟨false, TAction.HOLD, 0, "指标数据不足", "未知"⟩
    else
      let currentGold := ogt curr.ema15 curr.ema60
      let structTag := if currentGold then "金叉区域" else "死叉区域"
      match dir with
      | Direction.UP =>
        if currentGold then
          match scanCrossAux (crossUpAt cs) (cs.length - 1) (cs.length - 1) with
          | some k =>
            if cs.length - 1 - k ≤ 5 then
              let sl := scanZoneLow cs (k - 1) 150 ((getC cs (k - 1)).l)
              ⟨true, TAction.BUY, sl, "1H看涨 + 3m金叉 (容错范围内)", "金叉持稳"⟩
            else ⟨false, TAction.HOLD, 0, "1H看涨，3m处于金叉但已过入场窗口或处于死叉", structTag⟩
          | none => ⟨false, TAction.HOLD, 0, "1H看涨，3m处于金叉但已过入场窗口或处于死叉", structTag⟩
        else ⟨false, TAction.HOLD, 0, "1H看涨，3m处于金叉但已过入场窗口或处于死叉", structTag⟩
      | Direction.DOWN =>
        if ¬currentGold then
          match scanCrossAux (crossDownAt cs) (cs.length - 1) (cs.length - 1) with
          | some k =>
            if cs.length - 1 - k ≤ 5 then
              let sl := scanZoneHigh cs (k - 1) 150 ((getC cs (k - 1)).h)
              ⟨true, TAction.SELL, sl, "1H看跌 + 3m死叉 (容错范围内)", "死叉持稳"⟩
            else ⟨false, TAction.HOLD, 0, "1H看跌，3m处于死叉但已过入场窗口或处于金叉", structTag⟩
          | none => ⟨false, TAction.HOLD, 0, "1H看跌，3m处于死叉但已过入场窗口或处于金叉", structTag⟩
        else ⟨false, TAction.HOLD, 0, "1H看跌，3m处于死叉但已过入场窗口或处于金叉", structTag⟩
      | Direction.NEUTRAL => ⟨false, TAction.HOLD, 0, "1H趋势不明确或不满足入场", structTag⟩

/-- Instrument configuration (`COIN_CONFIG[coinKey]`). -/
structure CoinCfg where
  contractVal : ℚ
  tickSize : ℚ
  minSz : ℚ
deriving DecidableEq, Repr

/-- The ETH entry of `COIN_CONFIG` (src/unnamed/part_006). -/
def cfgETH : CoinCfg := { contractVal := 1/10, tickSize := 1/100, minSz := 1/100 }

/-- `TAKER_FEE_RATE = 0.0005` (src/unnamed/part_006). -/
def takerFeeRate : ℚ := 1/2000

/-- `parseFloat(DEFAULT_LEVERAGE)` with `DEFAULT_LEVERAGE = "20"`. -/
def defaultLeverage : ℚ := 20

/-- A mirrored exchange position (`PositionData`); `leverage` and
`slTriggerPx` may be absent (`none` models missing/NaN fields). -/
structure PosData where
  posSide : Side
  pos : ℚ
  avgPx : ℚ
  upl : ℚ
  margin : ℚ
  leverage : Option ℚ
  slTriggerPx : Option ℚ
  cTime : Int
deriving DecidableEq, Repr

/-- `parseFloat(p.leverage) || 20`. -/
def leverageOf (p : PosData) : ℚ :=
  match p.leverage with
  | none => 20
  | some x => if x = 0 then 20 else x

/-- `parseFloat(p.slTriggerPx || "0")`. -/
def currentSLOf (p : PosData) : ℚ :=
  p.slTriggerPx.getD 0

/-- Size request carried by a pre-decision: `"10%"`-style strings are
percentage requests, plain numeric strings are absolute contract counts. -/
inductive SizeReq where
  | pct (q : ℚ)
  | abs (q : ℚ)
deriving DecidableEq, Repr

/-- The locally computed pre-decision (`finalAction`, `finalSize`,
`finalSL`, `invalidationReason`) before the LLM call and sizing. -/
structure PreDec where
  action : TAction
  sizeReq : SizeReq
  sl : Option ℚ
  rsn : String
deriving DecidableEq, Repr

/-- `toFixed(0)`: round to the nearest integer (the engine only rounds
positive sizes, where JS rounds ties up like `round`). -/
def toFixed0 (q : ℚ) : ℚ :=
  ((round q : ℤ) : ℚ)

/-- Net ROI computation shared by the position branches of `analyzeCoin`
(src/unnamed/part_001 lines 271-279; identical in part_010 lines 262-270):
unrealized PnL minus estimated round-trip taker fees, divided by margin. -/
def netRoiOf (cfg : CoinCfg) (price : ℚ) (p : PosData) : ℚ :=
  let sizeCoins := p.pos * cfg.contractVal
  let openValUsd := sizeCoins * p.avgPx
  let closeValUsd := sizeCoins * price
  let estTotalFee := (openValUsd + closeValUsd) * takerFeeRate
  let netPnl := p.upl - estTotalFee
  if 0 < p.margin then netPnl / p.margin else 0

/-- Has the 1H trend flipped against the position's side?
(src/unnamed/part_001 lines 283-291, part_010 lines 274-283,
src/services/aiService.ts lines 289-298). -/
def trendReversalOf (dir : Direction) (p : PosData) : Bool :=
  (p.posSide = Side.long ∧ dir = Direction.DOWN) ∨
    (p.posSide = Side.short ∧ dir = Direction.UP)

/-- Position-management branch of `analyzeCoin` in src/unnamed/part_001
(lines 264-420): trend-reversal close, the four ratio/ROI-gated
take-profit stages, and the break-even maintenance block. -/
def p1PositionLogic (cfg : CoinCfg) (dir : Direction) (price totalEq : ℚ)
    (p : PosData) : PreDec :=
  let posSize := p.pos
  let avgEntry := p.avgPx
  let isLong := p.posSide = Side.long
  let leverageVal := leverageOf p
  let netRoi := netRoiOf cfg price p
  if trendReversalOf dir p then
    { action := TAction.CLOSE, sizeReq := SizeReq.abs 0, sl := none, rsn := "趋势反转" }
  else
    let equityAtEntry := totalEq - p.upl
    let estInitialValUsd := equityAtEntry * (1/10)
    let estInitialQty := (estInitialValUsd * leverageVal) / (avgEntry * cfg.contractVal)
    let ratioQ := posSize / estInitialQty
    let stage1 := (netRoi ≥ 1/20 ∧ ratioQ > 17/20) ∨
      (ratioQ ≤ 17/20 ∧ netRoi ≥ 1/20 ∧ netRoi < 2/25)
    let stage2 := (netRoi ≥ 2/25 ∧ ratioQ > 11/20 ∧ ratioQ ≤ 17/20) ∨
      (ratioQ ≤ 11/20 ∧ netRoi ≥ 2/25 ∧ netRoi < 3/25)
    let stage3 := netRoi ≥ 3/25 ∧ ratioQ > 3/10 ∧ ratioQ ≤ 11/20
    let stage4 := ratioQ ≤ 3/10 ∧ netRoi ≥ 3/25
    let afterStages : PreDec :=
      if stage1 then
        { action := if isLong then TAction.SELL else TAction.BUY,
          sizeReq := SizeReq.abs (toFixed0 (posSize * (3/10))),
          sl := none, rsn := "阶段一止盈" }
      else if stage2 then
        let targetSell := estInitialQty * (3/10)
        let targetSell := if targetSell > posSize then posSize else targetSell
        { action := if isLong then TAction.SELL else TAction.BUY,
          sizeReq := SizeReq.abs (toFixed0 targetSell),
          sl := none, rsn := "阶段二止盈" }
      else if stage3 then
        let targetSell := estInitialQty * (1/5)
        let targetSell := if targetSell > posSize then posSize else targetSell
        { action := if isLong then TAction.SELL else TAction.BUY,
          sizeReq := SizeReq.abs (toFixed0 targetSell),
          sl := none, rsn := "阶段三止盈" }
      else if stage4 then
        if netRoi < 7/100 then
          { action := TAction.CLOSE, sizeReq := SizeReq.abs 0, sl := none, rsn := "阶段四清仓" }
        else
          let priceBuffer := ((1/20) * avgEntry) / leverageVal
          let targetSL := if isLong then price - priceBuffer else price + priceBuffer
          let minProfitDelta := ((7/100) * avgEntry) / leverageVal
          let floorSL := if isLong then avgEntry + minProfitDelta else avgEntry - minProfitDelta
          let finalSLVal := if isLong then max targetSL floorSL else min targetSL floorSL
          { action := TAction.UPDATE_TPSL, sizeReq := SizeReq.abs 0,
            sl := some finalSLVal, rsn := "阶段四护盘" }
      else
        { action := TAction.HOLD, sizeReq := SizeReq.abs 0, sl := none, rsn := "" }
    if afterStages.action = TAction.HOLD ∧ netRoi > 1/50 ∧ ratioQ ≤ 17/20 then
      let currentSL := currentSLOf p
      let isSLSafe := if isLong then currentSL > avgEntry
        else (currentSL > 0 ∧ currentSL < avgEntry)
      if ¬isSLSafe then
        let feeBuffer := avgEntry * (1/1000)
        { action := TAction.UPDATE_TPSL, sizeReq := SizeReq.abs 0,
          sl := some (if isLong then avgEntry + feeBuffer else avgEntry - feeBuffer),
          rsn := "风控保本" }
      else afterStages
    else afterStages

/-- No-position branch of `analyzeCoin` in src/unnamed/part_001
(lines 422-429): follow the 3m entry signal with a 10%-of-equity request. -/
def p1EntryPre (entry : EntryResult) : PreDec :=
  if entry.signal then
    { action := entry.action, sizeReq := SizeReq.pct 10, sl := some entry.sl, rsn := "开仓" }
  else
    { action := TAction.HOLD, sizeReq := SizeReq.abs 0, sl := none, rsn := "" }

/-- The full local pre-decision of `analyzeCoin` (src/unnamed/part_001):
classify the 1H trend, scan the 3m series, then branch on position state
(`hasPosition` requires a found position with `pos > 0`). -/
def p1LocalPre (cfg : CoinCfg) (c1H c3m : List Candle) (price totalEq : ℚ)
    (posOpt : Option PosData) : PreDec :=
  let trend := analyze1HTrend c1H
  let entry := analyze3mEntry c3m trend.direction
  match posOpt with
  | some p => if 0 < p.pos then p1PositionLogic cfg trend.direction price totalEq p
              else p1EntryPre entry
  | none => p1EntryPre entry

/-- The decision record fields relevant to execution plus the narrative
fields the LLM may overwrite.  The `reasoning` string the source builds by
appending marker segments is modelled as the list `tags` of those markers. -/
structure Decision where
  action : TAction
  size : ℚ
  sl : Option ℚ
  market_assessment : String
  coin_analysis : String
  tags : List String
deriving DecidableEq, Repr

/-- The decision skeleton built from the local pre-decision
(src/unnamed/part_001 lines 483-503): `action` mirrors `finalAction`,
`size` starts at `"0"`, `stop_loss` mirrors `finalSL`. -/
def p1BuildDec (trend : TrendResult) (pre : PreDec) : Decision :=
  { action := pre.action, size := 0, sl := pre.sl,
    market_assessment := trend.description,
    coin_analysis := trend.description,
    tags := [pre.rsn] }

/-- Parsed fields of the LLM's JSON reply that `analyzeCoin` reads back
(src/unnamed/part_001 lines 505-517); a missing/empty field is `none`,
and a whole-reply parse failure is modelled as `none` at the call site. -/
structure AiJson where
  market_assessment : Option String
  coin_analysis : Option String
  reasoning : Option String
deriving DecidableEq, Repr

/-- Merge of the parsed LLM reply into the decision
(src/unnamed/part_001 lines 505-517): only `market_assessment`,
`coin_analysis` and the narrative `reasoning` are touched;
`hot_events_overview` is forced to a constant and is not modelled. -/
def applyAiJson (d : Decision) : Option AiJson → Decision
  | none => d
  | some a =>
    let d1 := match a.market_assessment with
      | some m => { d with market_assessment := m }
      | none => d
    let d2 := match a.coin_analysis with
      | some ca => { d1 with coin_analysis := ca }
      | none => d1
    match a.reasoning with
    | some r => { d2 with tags := d2.tags ++ [r] }
    | none => d2

/-- Size-calculation step of src/unnamed/part_001 (lines 519-601), as a
function from the pre-decision and the decision's current action to the
final `(action, contracts, appended reason markers)`:
percentage opens are floored against `min(strategy amount, availEquity)`;
fixed-number requests are floored; below the minimum size, closes are
bumped to the minimum (or to the floored held dust) while opens demand
`availEquity ≥ marginPerContract * MIN_SZ` and otherwise become HOLD with
an insufficient-funds marker. -/
def p1AllocCore (cfg : CoinCfg) (price totalEq availEq : ℚ)
    (posOpt : Option PosData) (pre : PreDec) (act0 : TAction) :
    TAction × ℚ × List String :=
  if pre.action = TAction.BUY ∨ pre.action = TAction.SELL then
    let mpc := cfg.contractVal * price / defaultLeverage
    let isClose : Bool :=
      match posOpt with
      | some p => decide (0 < p.pos) &&
          (decide (p.posSide = Side.long ∧ pre.action = TAction.SELL) ||
           decide (p.posSide = Side.short ∧ pre.action = TAction.BUY))
      | none => false
    let contracts0 : ℚ :=
      match pre.sizeReq with
      | SizeReq.pct q =>
        let strategyAmountU := totalEq * (q / 100)
        if ¬isClose then ((⌊min strategyAmountU availEq / mpc⌋ : ℤ) : ℚ)
        else ((⌊strategyAmountU / mpc⌋ : ℤ) : ℚ)
      | SizeReq.abs q => ((⌊q⌋ : ℤ) : ℚ)
    let step :=
      if contracts0 < cfg.minSz then
        if isClose then
          let held : ℚ := match posOpt with
            | some p => if 0 < p.pos then p.pos else 0
            | none => 0
          if cfg.minSz ≤ held then (act0, cfg.minSz, ["强制执行最小单位平仓"])
          else (act0, ((⌊held⌋ : ℤ) : ℚ), ([] : List String))
        else
          let costForMin := mpc * cfg.minSz
          if costForMin ≤ availEq then (act0, cfg.minSz, ["保底交易"])
          else (TAction.HOLD, (0 : ℚ), ["资金不足"])
      else (act0, contracts0, ([] : List String))
    let act1 := step.1
    let c1 := step.2.1
    let tg1 := step.2.2
    if 0 < c1 ∧ act1 ≠ TAction.HOLD then (act1, c1, tg1)
    else if act1 ≠ TAction.HOLD then (TAction.HOLD, 0, tg1)
    else (TAction.HOLD, 0, tg1)
  else (act0, 0, [])

/-- Application of the sizing step to the decision record. -/
def p1SizeCalc (cfg : CoinCfg) (price totalEq availEq : ℚ)
    (posOpt : Option PosData) (pre : PreDec) (d : Decision) : Decision :=
  let r := p1AllocCore cfg price totalEq availEq posOpt pre d.action
  { d with action := r.1, size := r.2.1, tags := d.tags ++ r.2.2 }

/-- End-to-end local decision of `analyzeCoin` (src/unnamed/part_001)
without the LLM enrichment: pre-decision, decision skeleton, sizing. -/
def p1AnalyzeCoinLocal (cfg : CoinCfg) (c1H c3m : List Candle)
    (price totalEq availEq : ℚ) (posOpt : Option PosData) : Decision :=
  let trend := analyze1HTrend c1H
  let pre := p1LocalPre cfg c1H c3m price totalEq posOpt
  p1SizeCalc cfg price totalEq availEq posOpt pre (p1BuildDec trend pre)

/-- Fallback decision returned by the outer `catch` of `analyzeCoin`
(src/unnamed/part_001 lines 605-620): a HOLD with zero size. -/
def p1ErrorDecision : Decision :=
  { action := TAction.HOLD, size := 0, sl := none,
    market_assessment := "N/A", coin_analysis := "N/A", tags := ["系统错误"] }

/-- `analyzeCoin` (src/unnamed/part_001) as a function of the LLM call's
outcome: a thrown LLM error hits the outer `catch` and yields the fallback
HOLD; a returned text is parsed (`none` = parse failure, kept local) and
merged before sizing. -/
def p1AnalyzeCoinRun (cfg : CoinCfg) (c1H c3m : List Candle)
    (price totalEq availEq : ℚ) (posOpt : Option PosData)
    (llm : Except Unit (Option AiJson)) : Decision :=
  match llm with
  | Except.error _ => p1ErrorDecision
  | Except.ok j =>
    let trend := analyze1HTrend c1H
    let pre := p1LocalPre cfg c1H c3m price totalEq posOpt
    p1SizeCalc cfg price totalEq availEq posOpt pre (applyAiJson (p1BuildDec trend pre) j)

/-- An entry of the system log ring (`SystemLog`): timestamp in
milliseconds, log type and message. -/
structure SysLog where
  tsMs : Int
  type : String
  msg : String
deriving DecidableEq, Repr

/-- Log entries inspected by the backtracking of src/unnamed/part_010
(lines 297-299): TRADE entries for this coin recorded after the
position's creation time. -/
def p10RelevantLogs (logs : List SysLog) (coinKey : String) (cTime : Int) :
    List SysLog :=
  logs.filter fun lg =>
    decide (cTime < lg.tsMs) && strContains lg.msg ("[" ++ coinKey ++ "]") &&
      (lg.type == "TRADE")

/-- `hasStage1/2/3` of src/unnamed/part_010 (lines 301-303): does some
relevant log message contain the given stage tag? -/
def p10HasTag (logs : List SysLog) (coinKey : String) (cTime : Int)
    (tag : String) : Bool :=
  (p10RelevantLogs logs coinKey cTime).any fun lg => strContains lg.msg tag

/-- Cumulative take-profit accumulation of src/unnamed/part_010
(lines 305-324): each ROI-qualified stage not yet recorded in the logs
adds its close fraction and its tag. -/
def p10StagesHit (logs : List SysLog) (coinKey : String) (cTime : Int)
    (netRoi : ℚ) : ℚ × List String :=
  let hasStage1 := p10HasTag logs coinKey cTime "阶段一"
  let hasStage2 := p10HasTag logs coinKey cTime "阶段二"
  let hasStage3 := p10HasTag logs coinKey cTime "阶段三"
  let acc1 : ℚ × List String :=
    if netRoi ≥ 1/20 ∧ ¬hasStage1 then (3/10, ["一"]) else (0, [])
  let acc2 : ℚ × List String :=
    if netRoi ≥ 2/25 ∧ ¬hasStage2 then (acc1.1 + 3/10, acc1.2 ++ ["二"]) else acc1
  if netRoi ≥ 3/25 ∧ ¬hasStage3 then (acc2.1 + 1/5, acc2.2 ++ ["三"]) else acc2

/-- Maintenance block of src/unnamed/part_010 (lines 335-388): the
break-even move (stop to entry ± 0.2% fee buffer unless already secured)
possibly overridden by the tail trailing stop, which is proposed only when
it is strictly tighter than the exchange-side stop. -/
def p10Maintenance (isLong : Bool) (price avgEntry lever currentSL : ℚ)
    (hasStage1 hasStage3 : Bool) (netRoi : ℚ) : Option ℚ :=
  let afterBE : Option ℚ :=
    if hasStage1 ∨ netRoi ≥ 1/20 then
      let feeBuffer := avgEntry * (1/500)
      let bePrice := if isLong then avgEntry + feeBuffer else avgEntry - feeBuffer
      let isSecured := if isLong then currentSL ≥ bePrice
        else (currentSL > 0 ∧ currentSL ≤ bePrice)
      if ¬isSecured then some bePrice else none
    else none
  if hasStage3 ∨ netRoi ≥ 3/25 then
    let priceGap := ((1/20) * avgEntry) / lever
    let targetSL := if isLong then price - priceGap else price + priceGap
    let needUpdate := if isLong then (currentSL = 0 ∨ targetSL > currentSL)
      else (currentSL = 0 ∨ targetSL < currentSL)
    if needUpdate then some targetSL else afterBE
  else afterBE

/-- Position-management branch of `analyzeCoin` in src/unnamed/part_010
(lines 254-400): trend-reversal close, merged multi-stage take profit
gated on the log backtracking, then break-even / trailing maintenance. -/
def p10PositionLogic (cfg : CoinCfg) (dir : Direction) (price totalEq : ℚ)
    (logs : List SysLog) (coinKey : String) (p : PosData) : PreDec :=
  let isLong := p.posSide = Side.long
  let netRoi := netRoiOf cfg price p
  if trendReversalOf dir p then
    { action := TAction.CLOSE, sizeReq := SizeReq.abs 0, sl := none,
      rsn := "趋势反转" }
  else
    let equityAtEntry := totalEq - p.upl
    let strategyAllocatedEquity := equityAtEntry * (1/10)
    let estInitialQty := (strategyAllocatedEquity * leverageOf p) / (p.avgPx * cfg.contractVal)
    let hit := p10StagesHit logs coinKey p.cTime netRoi
    if 0 < hit.1 then
      { action := if isLong then TAction.SELL else TAction.BUY,
        sizeReq := SizeReq.abs (toFixed0 (estInitialQty * hit.1)),
        sl := none,
        rsn := "[多阶止盈合并] 同时满足阶段" ++ String.intercalate "+" hit.2 }
    else
      let hasStage1 := p10HasTag logs coinKey p.cTime "阶段一"
      let hasStage3 := p10HasTag logs coinKey p.cTime "阶段三"
      match p10Maintenance isLong price p.avgPx (leverageOf p) (currentSLOf p)
          hasStage1 hasStage3 netRoi with
      | some s =>
        { action := TAction.UPDATE_TPSL, sizeReq := SizeReq.abs 0,
          sl := some s, rsn := "护盘" }
      | none =>
        { action := TAction.HOLD, sizeReq := SizeReq.abs 0, sl := none, rsn := "" }

/-- A pending exchange-side conditional (algo) order, as returned by
`orders-algo-pending` (string-typed `reduceOnly` flag, per the API). -/
structure AlgoOrder where
  algoId : String
  ordType : String
  reduceOnly : String
deriving DecidableEq, Repr

/-- Orphan filter of `checkAndCancelOrphanedAlgos`
(src/unnamed/part_000 lines 280-306): every pending algo order flagged
reduce-only is cancelled, regardless of its order type. -/
def orphanedAlgos (pending : List AlgoOrder) : List AlgoOrder :=
  pending.filter fun o => o.reduceOnly == "true"

/-- A position as seen by the sweeper's caller. -/
structure PosLite where
  instId : String
  pos : ℚ
deriving DecidableEq, Repr

/-- Instruments currently holding a position (src/server.ts lines 72-77). -/
def activeInstIds (positions : List PosLite) : List String :=
  (positions.filter fun p => 0 < p.pos).map fun p => p.instId

/-- The reconciliation sweep for one instrument (src/server.ts lines
88-101 with src/unnamed/part_000 lines 280-306): instruments with an
active position are skipped, otherwise all reduce-only pending algo
orders are cancelled.  Returns the cancelled orders. -/
def sweepInstrument (positions : List PosLite) (instId : String)
    (pending : List AlgoOrder) : List AlgoOrder :=
  if instId ∈ activeInstIds positions then [] else orphanedAlgos pending

/-- Modelled from the spec: the arithmetic mean of the lows of a candle
run (the stop §4.2 claims for longs).  Used only to compare against the
stop the source actually computes. -/
def specMeanLow (L : List Candle) : ℚ :=
  (L.map fun c => c.l).sum / L.length

/-- Have all candles from index `k` (inclusive) to the end of the series
their fast average strictly above the slow one?  Decidable form of the
still-in-the-gold-zone hypothesis. -/
def goldSpan (cs : List Candle) (k : ℕ) : Bool :=
  (List.range cs.length).all fun i =>
    decide (i < k) || ogt (getC cs i).ema15 (getC cs i).ema60

/-- A 1H candle labelled UP by the strict classifier. -/
def cUp1H : Candle :=
  { ts := 0, o := 9, h := 11, l := 9, c := 10, vol := 0, ema15 := some 6, ema60 := some 5 }

/-- A 1H candle labelled DOWN by the strict classifier. -/
def cDown1H : Candle :=
  { ts := 0, o := 2, h := 2, l := 1, c := 1, vol := 0, ema15 := some 1, ema60 := some 2 }

/-- A 1H candle labelled NEUTRAL by the strict classifier. -/
def cNeut1H : Candle :=
  { ts := 0, o := 1, h := 1, l := 1, c := 1, vol := 0, ema15 := some 1, ema60 := some 1 }

/-- 100 UP candles. -/
def cs1HUp : List Candle := List.replicate 100 cUp1H

/-- 100 DOWN candles. -/
def cs1HDown : List Candle := List.replicate 100 cDown1H

/-- 100 NEUTRAL candles. -/
def cs1HNeut : List Candle := List.replicate 100 cNeut1H

/-- A 3m death-zone candle with low 100. -/
def cDeath : Candle :=
  { ts := 0, o := 100, h := 102, l := 100, c := 101, vol := 0, ema15 := some 1, ema60 := some 2 }

/-- A 3m death-zone candle with low 90. -/
def cDeath90 : Candle :=
  { ts := 0, o := 100, h := 102, l := 90, c := 101, vol := 0, ema15 := some 1, ema60 := some 2 }

/-- A 3m gold-zone candle. -/
def cGold : Candle :=
  { ts := 0, o := 101, h := 103, l := 101, c := 102, vol := 0, ema15 := some 3, ema60 := some 2 }

/-- A 3m series with a golden cross at index 98 after a long death zone
whose lows are all 100. -/
def cs3mGold : List Candle := List.replicate 98 cDeath ++ [cGold, cGold]

/-- A 3m series with a golden cross at index 98 after a two-candle death
zone whose lows are 90 (index 96) and 100 (index 97). -/
def csC6 : List Candle := List.replicate 96 cGold ++ [cDeath90, cDeath, cGold, cGold]

/-- A 3m series with a golden cross at index 98 after a two-candle death
zone (lows 100) inside a long gold run. -/
def csC7 : List Candle := List.replicate 96 cGold ++ [cDeath, cDeath, cGold, cGold]

/-- The 100-candle series for the C5 counterexample: EMA15 above EMA60 but
the close far below both. -/
def csC5 : List Candle :=
  List.replicate 100
    { ts := 0, o := 2, h := 2, l := 1, c := 1, vol := 0, ema15 := some 5, ema60 := some 3 }

/-- Stale opposing-regime candles for the C8 counterexample. -/
def cBase8 : Candle :=
  { ts := 0, o := 10, h := 11, l := 9, c := 10, vol := 10, ema15 := some 1, ema60 := some 2 }

/-- Second-to-last candle of the C8 counterexample (wider EMA gap, lower
fast EMA, normal volume). -/
def cPrev8 : Candle :=
  { ts := 0, o := 95, h := 96, l := 94, c := 95, vol := 10, ema15 := some 97, ema60 := some (199/2) }

/-- Latest candle of the C8 counterexample: close above both EMAs, gap
narrowed, fast EMA slope up, volume spike - yet still `ema15 < ema60`. -/
def cLast8 : Candle :=
  { ts := 0, o := 99, h := 101, l := 98, c := 100, vol := 100, ema15 := some 98, ema60 := some 99 }

/-- The C8 counterexample series. -/
def csC8 : List Candle := List.replicate 98 cBase8 ++ [cPrev8, cLast8]

/-- The part_001 position of the C1 counterexample: a long tail position
(ratio 1/4) at net ROI about 12.5% whose exchange-side stop is already at
101.5, above what the stage-4 trailing logic will propose. -/
def posC1 : PosData :=
  { posSide := Side.long, pos := 50, avgPx := 100, upl := 13, margin := 100,
    leverage := some 20, slTriggerPx := some (203/2), cTime := 0 }

/-- Cycle-A position of the C3 counterexample (and the C2 reduce
counterexample): a long at net ROI 7.995% with ratio 1. -/
def posA : PosData :=
  { posSide := Side.long, pos := 20, avgPx := 100, upl := 1, margin := 10,
    leverage := some 20, slTriggerPx := none, cTime := 0 }

/-- Cycle-B position of the C3 counterexample: the same position after the
stage-1 partial close (14 of 20 contracts left), again at net ROI 7.995%. -/
def posB : PosData :=
  { posSide := Side.long, pos := 14, avgPx := 100, upl := 7/10, margin := 7,
    leverage := some 20, slTriggerPx := none, cTime := 0 }

/-- Long position used by the C1 witness: stage 1 already logged, stop
still at 50, net ROI about 5.8%. -/
def posW1 : PosData :=
  { posSide := Side.long, pos := 10, avgPx := 100, upl := 3, margin := 50,
    leverage := some 20, slTriggerPx := some 50, cTime := 0 }

/-- Long position used by the C4 witness. -/
def posW4 : PosData :=
  { posSide := Side.long, pos := 5, avgPx := 100, upl := 0, margin := 10,
    leverage := some 20, slTriggerPx := none, cTime := 0 }

/-- A TRADE log recording a stage-1 firing for ETH, as the part_007-style
orchestrator writes it from the decision's reasoning. -/
def logStage1 : SysLog :=
  { tsMs := 10, type := "TRADE", msg := "[ETH] 信号触发: SELL | 理由: [阶段一止盈] 平仓30%" }

/-- TRADE log line recorded for a part_010 merged stage-1+2 firing (the
reason built at src/unnamed/part_010 line 332): its stage tag is the run
`阶段一+二`, which contains the substring `阶段一` but not `阶段二`. -/
def logMerged12 : SysLog :=
  { tsMs := 10, type := "TRADE",
    msg := "[ETH] 信号触发: SELL | 理由: [多阶止盈合并] 同时满足阶段一+二 (ROI 8.40%) -> 合并平仓初始量的 60%" }

/-- TRADE log line for a full merged stage-1+2+3 firing: the tag
`阶段一+二+三` contains neither `阶段二` nor `阶段三`. -/
def logMerged123 : SysLog :=
  { tsMs := 10, type := "TRADE",
    msg := "[ETH] 信号触发: SELL | 理由: [多阶止盈合并] 同时满足阶段一+二+三 (ROI 12.40%) -> 合并平仓初始量的 80%" }

/-- TRADE log line the server.ts orchestrator writes for an executed order
(src/server.ts line 176): it carries no stage tag at all. -/
def logServerExec : SysLog :=
  { tsMs := 10, type := "TRADE", msg := "[ETH] 执行: SELL 6 张. 结果: ok" }

/-- Pending algo orders for the C9 witness: three reduce-only and two not. -/
def pendC9 : List AlgoOrder :=
  [ { algoId := "a1", ordType := "conditional", reduceOnly := "true" },
    { algoId := "a2", ordType := "conditional", reduceOnly := "true" },
    { algoId := "a3", ordType := "move_order_stop", reduceOnly := "true" },
    { algoId := "b1", ordType := "conditional", reduceOnly := "false" },
    { algoId := "b2", ordType := "limit", reduceOnly := "false" } ]

/-- Positions for the C9 witness: the audited instrument is flat, another
instrument holds a position. -/
def posListC9 : List PosLite :=
  [ { instId := "ETH-USDT-SWAP", pos := 0 }, { instId := "SOL-USDT-SWAP", pos := 3 } ]

/-- Opening pre-decision at the reference numbers of the sizing walk-through:
a BUY requesting 10% of equity with a stop below entry. -/
def preW2 : PreDec :=
  { action := TAction.BUY, sizeReq := SizeReq.pct 10, sl := some 2900, rsn := "开仓" }

/-- Decision skeleton carrying `preW2`'s action into the sizing step. -/
def dW2 : Decision :=
  { action := TAction.BUY, size := 0, sl := some 2900,
    market_assessment := "", coin_analysis := "", tags := [] }

/-- Claim C9: for an instrument with zero position size the sweep cancels
exactly the pending orders flagged reduce-only and no others, and running
the sweep again on the surviving orders cancels nothing (idempotence). -/
theorem c9_sweeper_exact_reduce_only (positions : List PosLite) (instId : String)
    (pending : List AlgoOrder)
    (hzero : instId ∉ activeInstIds positions) :
    (∀ o, o ∈ sweepInstrument positions instId pending ↔
        o ∈ pending ∧ o.reduceOnly = "true") ∧
    sweepInstrument positions instId
      (pending.filter fun o => decide (o ∉ sweepInstrument positions instId pending)) = [] := by
  have hsw : ∀ ps, sweepInstrument positions instId ps = orphanedAlgos ps := by
    intro ps
    simp [sweepInstrument, hzero]
  constructor
  · intro o
    rw [hsw]
    simp [orphanedAlgos, List.mem_filter]
  · rw [hsw, hsw]
    rw [List.eq_nil_iff_forall_not_mem]
    intro o ho
    simp only [orphanedAlgos, List.mem_filter, decide_eq_true_eq] at ho
    exact ho.1.2 ⟨ho.1.1, ho.2⟩

/-- Witness for C9: with three reduce-only and two other pending orders on
a flat instrument, a reduce-only order is cancelled, a non-reduce-only one
is not, and exactly three orders are cancelled. -/
theorem c9_sweeper_exact_reduce_only_witness :
    ((pendC9.get ⟨0, by decide⟩) ∈ sweepInstrument posListC9 "ETH-USDT-SWAP" pendC9 ↔
      (pendC9.get ⟨0, by decide⟩) ∈ pendC9 ∧ (pendC9.get ⟨0, by decide⟩).reduceOnly = "true") ∧
    (sweepInstrument posListC9 "ETH-USDT-SWAP" pendC9).length = 3 := by
  refine ⟨(c9_sweeper_exact_reduce_only posListC9 "ETH-USDT-SWAP" pendC9 (by decide)).1 _, by decide⟩

/-- Claim C5 (amended): in the strict engine iterations the trend label is
UP iff close > EMA60 and EMA15 > EMA60, DOWN iff both reversed; a series
shorter than 100 candles is labelled NEUTRAL with the insufficient-data
reason; and the label depends only on the latest closed candle.  (The
aiService.ts iteration labels UP from EMA15 > EMA60 alone; see the
counterexample.) -/
theorem c5_trend_direction_charac :
    (∀ cs : List Candle, 100 ≤ cs.length →
      truthy (getC cs (cs.length - 1)).ema15 = true →
      truthy (getC cs (cs.length - 1)).ema60 = true →
      (((analyze1HTrend cs).direction = Direction.UP ↔
         (getC cs (cs.length - 1)).ema60.getD 0 < (getC cs (cs.length - 1)).c ∧
         (getC cs (cs.length - 1)).ema60.getD 0 < (getC cs (cs.length - 1)).ema15.getD 0) ∧
       ((analyze1HTrend cs).direction = Direction.DOWN ↔
         (getC cs (cs.length - 1)).c < (getC cs (cs.length - 1)).ema60.getD 0 ∧
         (getC cs (cs.length - 1)).ema15.getD 0 < (getC cs (cs.length - 1)).ema60.getD 0))) ∧
    (∀ cs : List Candle, cs.length < 100 →
      analyze1HTrend cs = ⟨Direction.NEUTRAL, 0, "数据不足"⟩) ∧
    (∀ cs cs' : List Candle, 100 ≤ cs.length → 100 ≤ cs'.length →
      getC cs (cs.length - 1) = getC cs' (cs'.length - 1) →
      (analyze1HTrend cs).direction = (analyze1HTrend cs').direction) := by
  refine ⟨?_, ?_, ?_⟩
  · intro cs hlen h15 h60
    simp only [analyze1HTrend]
    rw [if_neg (by omega)]
    rw [if_neg (by simp [h15, h60])]
    by_cases hup : (getC cs (cs.length - 1)).c > (getC cs (cs.length - 1)).ema60.getD 0 ∧
        (getC cs (cs.length - 1)).ema15.getD 0 > (getC cs (cs.length - 1)).ema60.getD 0
    · rw [if_pos hup]
      refine ⟨⟨fun _ => ⟨hup.1, hup.2⟩, fun _ => rfl⟩,
        ⟨fun h => Direction.noConfusion h,
         fun h => absurd (lt_trans hup.1 h.1) (lt_irrefl _)⟩⟩
    · rw [if_neg hup]
      by_cases hdn : (getC cs (cs.length - 1)).c < (getC cs (cs.length - 1)).ema60.getD 0 ∧
          (getC cs (cs.length - 1)).ema15.getD 0 < (getC cs (cs.length - 1)).ema60.getD 0
      · rw [if_pos hdn]
        refine ⟨⟨fun h => Direction.noConfusion h,
          fun h => absurd (lt_trans h.1 hdn.1) (lt_irrefl _)⟩,
          ⟨fun _ => hdn, fun _ => rfl⟩⟩
      · rw [if_neg hdn]
        exact ⟨⟨fun h => Direction.noConfusion h, fun h => absurd ⟨h.1, h.2⟩ hup⟩,
          ⟨fun h => Direction.noConfusion h, fun h => absurd h hdn⟩⟩
  · intro cs hlen
    simp only [analyze1HTrend]
    rw [if_pos (by omega)]
  · intro cs cs' hlen hlen' heq
    simp only [analyze1HTrend]
    rw [if_neg (show ¬(cs.length < 100) by omega),
      if_neg (show ¬(cs'.length < 100) by omega), heq]

/-- Witness for C5: a concrete UP-labelled series and the short-series
NEUTRAL result. -/
theorem c5_trend_direction_charac_witness :
    (analyze1HTrend cs1HUp).direction = Direction.UP ∧
    analyze1HTrend [] = ⟨Direction.NEUTRAL, 0, "数据不足"⟩ :=
  ⟨((c5_trend_direction_charac.1 cs1HUp (by decide) (by decide) (by decide)).1).mpr (by decide),
   c5_trend_direction_charac.2.1 [] (by decide)⟩

/-- Counterexample for C5: the aiService.ts classifier labels a candle UP
although its close is below the slow average, refuting the claimed
biconditional for that cited implementation. -/
theorem c5_svc_up_ignores_price :
    (analyze1HTrendSvc csC5).direction = Direction.UP ∧
    ¬((getC csC5 (csC5.length - 1)).ema60.getD 0 < (getC csC5 (csC5.length - 1)).c) := by
  decide

attribute [local semireducible] Rat.add Rat.sub Rat.mul Rat.inv

/-- Claim C8 (amended): there is no momentum-lead mode - while the fast
average is not strictly above the slow one `analyze3mEntry` never fires in
an UP trend, and while it is strictly above it never fires in a DOWN
trend, whatever the price, volume, gap or slope conditions are. -/
theorem c8_no_fire_in_opposing_regime :
    (∀ cs : List Candle,
      ogt (getC cs (cs.length - 1)).ema15 (getC cs (cs.length - 1)).ema60 = false →
      (analyze3mEntry cs Direction.UP).signal = false) ∧
    (∀ cs : List Candle,
      ogt (getC cs (cs.length - 1)).ema15 (getC cs (cs.length - 1)).ema60 = true →
      (analyze3mEntry cs Direction.DOWN).signal = false) := by
  constructor
  · intro cs hg
    simp only [analyze3mEntry]
    split_ifs with h1 h2 h3 <;>
      first
        | rfl
        | (rw [hg] at h3; exact Bool.noConfusion h3)
  · intro cs hg
    simp only [analyze3mEntry]
    split_ifs with h1 h2 <;> rfl

/-- Witness for C8: on the concrete opposing-regime series the detector
stays silent in an UP trend. -/
theorem c8_no_fire_in_opposing_regime_witness :
    (analyze3mEntry csC8 Direction.UP).signal = false :=
  c8_no_fire_in_opposing_regime.1 csC8 (by decide)

/-- Counterexample for C8: a series satisfying every condition the claim
lists for the momentum-lead mode (close above both averages, narrowing
gap, upward fast-average slope, volume above 1.5 times its 5-candle
trailing average) while still in the opposing regime - and the detector
does not fire, because no such mode exists in the source. -/
theorem c8_momentum_conditions_no_fire :
    ((getC csC8 99).ema15.getD 0 < (getC csC8 99).c ∧
      (getC csC8 99).ema60.getD 0 < (getC csC8 99).c) ∧
    ((getC csC8 99).ema60.getD 0 - (getC csC8 99).ema15.getD 0 <
      (getC csC8 98).ema60.getD 0 - (getC csC8 98).ema15.getD 0) ∧
    ((getC csC8 98).ema15.getD 0 < (getC csC8 99).ema15.getD 0) ∧
    ((3/2 : ℚ) * (((getC csC8 94).vol + (getC csC8 95).vol + (getC csC8 96).vol +
      (getC csC8 97).vol + (getC csC8 98).vol) / 5) < (getC csC8 99).vol) ∧
    (ogt (getC csC8 99).ema15 (getC csC8 99).ema60 = false) ∧
    ((analyze3mEntry csC8 Direction.UP).signal = false) := by
  decide

/-- A flipped dominant trend makes the part_001 position logic emit CLOSE
before any stage is considered. -/
theorem p1PositionLogic_close (cfg : CoinCfg) (dir : Direction)
    (price totalEq : ℚ) (p : PosData)
    (h : trendReversalOf dir p = true) :
    p1PositionLogic cfg dir price totalEq p =
      { action := TAction.CLOSE, sizeReq := SizeReq.abs 0, sl := none, rsn := "趋势反转" } := by
  unfold p1PositionLogic
  rw [h]
  simp

/-- The sizing step leaves non-order actions untouched. -/
theorem p1AllocCore_passthrough (cfg : CoinCfg) (price totalEq availEq : ℚ)
    (posOpt : Option PosData) (pre : PreDec) (act0 : TAction)
    (h : ¬(pre.action = TAction.BUY ∨ pre.action = TAction.SELL)) :
    p1AllocCore cfg price totalEq availEq posOpt pre act0 = (act0, 0, []) := by
  unfold p1AllocCore
  rw [if_neg h]

/-- Claim C4: whenever the dominant trend has flipped against an open
position's side, the part_001 engine's final decision is CLOSE, whatever
the profit stage, ratio, stop or funding situation is - the reversal check
runs first and overrides every other rule. -/
theorem c4_trend_reversal_close (cfg : CoinCfg) (c1H c3m : List Candle)
    (price totalEq availEq : ℚ) (p : PosData)
    (hpos : 0 < p.pos)
    (hflip : ((analyze1HTrend c1H).direction = Direction.DOWN ∧ p.posSide = Side.long) ∨
      ((analyze1HTrend c1H).direction = Direction.UP ∧ p.posSide = Side.short)) :
    (p1AnalyzeCoinLocal cfg c1H c3m price totalEq availEq (some p)).action = TAction.CLOSE := by
  have hrev : trendReversalOf (analyze1HTrend c1H).direction p = true := by
    rcases hflip with ⟨h1, h2⟩ | ⟨h1, h2⟩ <;> simp [trendReversalOf, h1, h2]
  have hpre : p1LocalPre cfg c1H c3m price totalEq (some p) =
      { action := TAction.CLOSE, sizeReq := SizeReq.abs 0, sl := none, rsn := "趋势反转" } := by
    show (if 0 < p.pos then p1PositionLogic cfg (analyze1HTrend c1H).direction price totalEq p
        else p1EntryPre (analyze3mEntry c3m (analyze1HTrend c1H).direction)) = _
    rw [if_pos hpos]
    exact p1PositionLogic_close cfg _ price totalEq p hrev
  unfold p1AnalyzeCoinLocal p1SizeCalc
  rw [hpre]
  simp [p1AllocCore, p1BuildDec]

/-- Witness for C4: a concrete long position in a DOWN trend is closed. -/
theorem c4_trend_reversal_close_witness :
    (p1AnalyzeCoinLocal cfgETH cs1HDown cs3mGold 101 1000 500 (some posW4)).action =
      TAction.CLOSE :=
  c4_trend_reversal_close cfgETH cs1HDown cs3mGold 101 1000 500 posW4 (by decide)
    (Or.inl (by decide))

/-- The LLM-reply merge never changes action, size or stop. -/
theorem applyAiJson_core (d : Decision) (j : Option AiJson) :
    (applyAiJson d j).action = d.action ∧ (applyAiJson d j).size = d.size ∧
      (applyAiJson d j).sl = d.sl := by
  cases j with
  | none => exact ⟨rfl, rfl, rfl⟩
  | some a =>
    cases ha : a.market_assessment <;> cases hc : a.coin_analysis <;>
      cases hr : a.reasoning <;> simp [applyAiJson, ha, hc, hr]

/-- Claim C10 (amended): two runs on identical market and account inputs
that differ only in the LLM's reply text (including unparseable replies)
produce identical action, size and stop; a thrown LLM call however
replaces the whole decision by the fallback HOLD (see counterexample). -/
theorem c10_llm_text_immaterial (cfg : CoinCfg) (c1H c3m : List Candle)
    (price totalEq availEq : ℚ) (posOpt : Option PosData)
    (j1 j2 : Option AiJson) :
    (p1AnalyzeCoinRun cfg c1H c3m price totalEq availEq posOpt (Except.ok j1)).action =
      (p1AnalyzeCoinRun cfg c1H c3m price totalEq availEq posOpt (Except.ok j2)).action ∧
    (p1AnalyzeCoinRun cfg c1H c3m price totalEq availEq posOpt (Except.ok j1)).size =
      (p1AnalyzeCoinRun cfg c1H c3m price totalEq availEq posOpt (Except.ok j2)).size ∧
    (p1AnalyzeCoinRun cfg c1H c3m price totalEq availEq posOpt (Except.ok j1)).sl =
      (p1AnalyzeCoinRun cfg c1H c3m price totalEq availEq posOpt (Except.ok j2)).sl := by
  have h1 := applyAiJson_core
    (p1BuildDec (analyze1HTrend c1H) (p1LocalPre cfg c1H c3m price totalEq posOpt)) j1
  have h2 := applyAiJson_core
    (p1BuildDec (analyze1HTrend c1H) (p1LocalPre cfg c1H c3m price totalEq posOpt)) j2
  simp only [p1AnalyzeCoinRun, p1SizeCalc]
  refine ⟨?_, ?_, ?_⟩
  · simp only [h1.1, h2.1]
  · simp only [h1.1, h2.1]
  · simp only [h1.2.2, h2.2.2]

/-- Counterexample for C10: on a concrete entry signal the engine orders
BUY when the LLM call returns (whatever it returns), but a thrown LLM call
turns the decision into the fallback HOLD - a failing LLM call does change
the computed action. -/
theorem c10_llm_failure_flips_action :
    (p1AnalyzeCoinRun cfgETH cs1HUp cs3mGold 100 1000 500 none (Except.ok none)).action =
      TAction.BUY ∧
    (p1AnalyzeCoinRun cfgETH cs1HUp cs3mGold 100 1000 500 none (Except.error ())).action =
      TAction.HOLD := by
  decide

/-- Any stop the part_010 maintenance block proposes is strictly more
favorable than a positive exchange-side stop: strictly higher for a long,
strictly lower for a short. -/
theorem p10Maintenance_ratchet (isLong : Bool) (price avgEntry lever currentSL : ℚ)
    (h1 h3 : Bool) (netRoi : ℚ) (s : ℚ)
    (hpos : 0 < currentSL)
    (hs : p10Maintenance isLong price avgEntry lever currentSL h1 h3 netRoi = some s) :
    (isLong = true → currentSL < s) ∧ (isLong = false → s < currentSL) := by
  cases isLong with
  | true =>
    refine ⟨fun _ => ?_, fun h => Bool.noConfusion h⟩
    unfold p10Maintenance at hs
    simp only [if_pos rfl] at hs
    split_ifs at hs with g1 g2 g3 g4 g5 g6
    all_goals first
      | (exact Option.noConfusion hs)
      | (injection hs with hs
         subst hs
         first
           | (rcases g2 with h0 | hlt
              · exact absurd h0 (ne_of_gt hpos)
              · exact hlt)
           | (exact lt_of_not_le (by assumption)))
  | false =>
    refine ⟨fun h => Bool.noConfusion h, fun _ => ?_⟩
    unfold p10Maintenance at hs
    simp only [Bool.false_eq_true, if_neg (show ¬False from id)] at hs
    split_ifs at hs with g1 g2 g3 g4 g5 g6
    all_goals first
      | (exact Option.noConfusion hs)
      | (injection hs with hs
         subst hs
         first
           | (rcases g2 with h0 | hlt
              · exact absurd h0 (ne_of_gt hpos)
              · exact hlt)
           | (exact lt_of_not_le fun hle =>
                (by assumption : ¬(currentSL > 0 ∧ currentSL ≤ avgEntry - avgEntry * (1/500)))
                  ⟨hpos, hle⟩))

/-- Claim C1 (amended): in the part_010 engine, every UPDATE_TPSL decision
carries a stop strictly more favorable than the currently set stop (long:
strictly greater, short: strictly less) whenever a stop is set, so across
cycles the stop never moves in the unfavorable direction.  (The part_001
engine's stage-4 trailing stop is emitted without this comparison and can
move the stop unfavorably; see the counterexample.) -/
theorem c1_stop_ratchet_part010 (cfg : CoinCfg) (dir : Direction)
    (price totalEq : ℚ) (logs : List SysLog) (ck : String) (p : PosData)
    (hact : (p10PositionLogic cfg dir price totalEq logs ck p).action = TAction.UPDATE_TPSL)
    (hsl : 0 < currentSLOf p) :
    ∃ s, (p10PositionLogic cfg dir price totalEq logs ck p).sl = some s ∧
      (p.posSide = Side.long → currentSLOf p < s) ∧
      (p.posSide = Side.short → s < currentSLOf p) := by
  simp only [p10PositionLogic] at hact ⊢
  split_ifs at hact ⊢ with h1 h2
  rcases hm : p10Maintenance (decide (p.posSide = Side.long)) price p.avgPx
      (leverageOf p) (currentSLOf p) (p10HasTag logs ck p.cTime "阶段一")
      (p10HasTag logs ck p.cTime "阶段三") (netRoiOf cfg price p) with _ | s
  · rw [hm] at hact
    exact TAction.noConfusion hact
  · have hr := p10Maintenance_ratchet (decide (p.posSide = Side.long)) price p.avgPx
      (leverageOf p) (currentSLOf p) (p10HasTag logs ck p.cTime "阶段一")
      (p10HasTag logs ck p.cTime "阶段三") (netRoiOf cfg price p) s hsl hm
    refine ⟨s, rfl, fun hl => hr.1 (by rw [hl]; rfl), fun hsh => hr.2 (by rw [hsh]; rfl)⟩

/-- Witness for C1: a concrete long with stage 1 logged and stop 50 gets
the break-even stop, strictly above the current stop. -/
theorem c1_stop_ratchet_part010_witness :
    (p10PositionLogic cfgETH Direction.NEUTRAL 101 1000 [logStage1] "ETH" posW1).action =
      TAction.UPDATE_TPSL ∧
    ∃ s, (p10PositionLogic cfgETH Direction.NEUTRAL 101 1000 [logStage1] "ETH" posW1).sl =
        some s ∧
      (posW1.posSide = Side.long → currentSLOf posW1 < s) ∧
      (posW1.posSide = Side.short → s < currentSLOf posW1) :=
  ⟨by decide,
   c1_stop_ratchet_part010 cfgETH Direction.NEUTRAL 101 1000 [logStage1] "ETH" posW1
     (by decide) (by decide)⟩

/-- Counterexample for C1: the part_001 stage-4 trailing logic emits an
UPDATE_TPSL whose stop (100.75) is strictly below the long position's
currently set stop (101.5) - the proposed stop is applied without being
compared to the current stop, moving it in the unfavorable direction. -/
theorem c1_stage4_unfavorable_move_part001 :
    (p1PositionLogic cfgETH Direction.NEUTRAL 101 1013 posC1).action = TAction.UPDATE_TPSL ∧
    (p1PositionLogic cfgETH Direction.NEUTRAL 101 1013 posC1).sl = some (403/4) ∧
    posC1.posSide = Side.long ∧
    (403/4 : ℚ) < currentSLOf posC1 := by
  decide

/-- Claim C3 (amended): the part_010 log backtracking skips a stage
exactly when that stage's own tag appears in a relevant TRADE log - a
per-tag dedup, not a lifecycle guarantee.  Conjuncts 1-3: a tagged stage
never fires again; 4-5: with no/only-stage-one tags logged, ROI 5% fires
exactly stage one and ROI 8% exactly stage two.  Conjuncts 6-8 prove the
gaps: a merged firing is logged with the run tag `阶段一+二` (or
`阶段一+二+三`), which the substring checks for `阶段二`/`阶段三` do NOT
match, so those stages fire a second time the next cycle; and the
orchestrator's untagged TRADE line recovers nothing, letting stage one
re-fire. -/
theorem c3_stage_dedup_by_logs :
    (∀ (logs : List SysLog) (ck : String) (ct : Int) (r : ℚ),
      p10HasTag logs ck ct "阶段一" = true → "一" ∉ (p10StagesHit logs ck ct r).2) ∧
    (∀ (logs : List SysLog) (ck : String) (ct : Int) (r : ℚ),
      p10HasTag logs ck ct "阶段二" = true → "二" ∉ (p10StagesHit logs ck ct r).2) ∧
    (∀ (logs : List SysLog) (ck : String) (ct : Int) (r : ℚ),
      p10HasTag logs ck ct "阶段三" = true → "三" ∉ (p10StagesHit logs ck ct r).2) ∧
    (∀ (logs : List SysLog) (ck : String) (ct : Int),
      p10HasTag logs ck ct "阶段一" = false → p10HasTag logs ck ct "阶段二" = false →
      p10HasTag logs ck ct "阶段三" = false →
      (p10StagesHit logs ck ct (1/20)).2 = ["一"]) ∧
    (∀ (logs : List SysLog) (ck : String) (ct : Int),
      p10HasTag logs ck ct "阶段一" = true → p10HasTag logs ck ct "阶段二" = false →
      p10HasTag logs ck ct "阶段三" = false →
      (p10StagesHit logs ck ct (2/25)).2 = ["二"]) ∧
    (p10HasTag [logMerged12] "ETH" 0 "阶段一" = true ∧
     p10HasTag [logMerged12] "ETH" 0 "阶段二" = false ∧
     ∀ r : ℚ, 2/25 ≤ r → "二" ∈ (p10StagesHit [logMerged12] "ETH" 0 r).2) ∧
    (p10HasTag [logMerged123] "ETH" 0 "阶段二" = false ∧
     p10HasTag [logMerged123] "ETH" 0 "阶段三" = false ∧
     ∀ r : ℚ, 3/25 ≤ r → "二" ∈ (p10StagesHit [logMerged123] "ETH" 0 r).2 ∧
       "三" ∈ (p10StagesHit [logMerged123] "ETH" 0 r).2) ∧
    (p10HasTag [logServerExec] "ETH" 0 "阶段一" = false ∧
     p10HasTag [logServerExec] "ETH" 0 "阶段二" = false ∧
     p10HasTag [logServerExec] "ETH" 0 "阶段三" = false ∧
     (p10StagesHit [logServerExec] "ETH" 0 (1/20)).2 = ["一"]) := by
  refine ⟨?_, ?_, ?_, ?_, ?_, ?_, ?_, ?_⟩
  · intro logs ck ct r h
    simp only [p10StagesHit, h]
    split_ifs <;> simp_all
  · intro logs ck ct r h
    simp only [p10StagesHit, h]
    split_ifs <;> simp_all
  · intro logs ck ct r h
    simp only [p10StagesHit, h]
    split_ifs <;> simp_all
  · intro logs ck ct h1 h2 h3
    simp only [p10StagesHit, h1, h2, h3]
    norm_num
  · intro logs ck ct h1 h2 h3
    simp only [p10StagesHit, h1, h2, h3]
    norm_num
  · refine ⟨by decide, by decide, ?_⟩
    intro r hr
    have h1 : p10HasTag [logMerged12] "ETH" 0 "阶段一" = true := by decide
    have h2 : p10HasTag [logMerged12] "ETH" 0 "阶段二" = false := by decide
    have h3 : p10HasTag [logMerged12] "ETH" 0 "阶段三" = false := by decide
    simp only [p10StagesHit, h1, h2, h3]
    split_ifs <;> simp_all
  · refine ⟨by decide, by decide, ?_⟩
    intro r hr
    have h1 : p10HasTag [logMerged123] "ETH" 0 "阶段一" = true := by decide
    have h2 : p10HasTag [logMerged123] "ETH" 0 "阶段二" = false := by decide
    have h3 : p10HasTag [logMerged123] "ETH" 0 "阶段三" = false := by decide
    have hr2 : (2:ℚ)/25 ≤ r := le_trans (by norm_num) hr
    simp only [p10StagesHit, h1, h2, h3]
    split_ifs <;> simp_all
  · exact ⟨by decide, by decide, by decide, by decide⟩

/-- Witness for C3: with a concrete stage-one TRADE log, a cycle at net
ROI exactly 8% fires exactly stage two. -/
theorem c3_stage_dedup_by_logs_witness :
    p10HasTag [logStage1] "ETH" 0 "阶段一" = true ∧
    (p10StagesHit [logStage1] "ETH" 0 (2/25)).2 = ["二"] :=
  ⟨by decide,
   c3_stage_dedup_by_logs.2.2.2.2.1 [logStage1] "ETH" 0 (by decide) (by decide) (by decide)⟩

/-- Counterexample for C3: in the part_001 engine the same long position
(entry 100, opened at the same time) triggers the stage-one partial close
in two consecutive cycles - first at ratio 1 via the main stage-1 rule,
then, after the 30% reduction, again via the ratio-fallback rule, because
net ROI is still inside [5%, 8%).  Stage one does not fire exactly once
per position lifecycle. -/
theorem c3_stage1_refires_part001 :
    (p1PositionLogic cfgETH Direction.NEUTRAL (201/2) 101 posA).action = TAction.SELL ∧
    (p1PositionLogic cfgETH Direction.NEUTRAL (201/2) 101 posA).rsn = "阶段一止盈" ∧
    (p1PositionLogic cfgETH Direction.NEUTRAL (201/2) (1007/10) posB).action = TAction.SELL ∧
    (p1PositionLogic cfgETH Direction.NEUTRAL (201/2) (1007/10) posB).rsn = "阶段一止盈" ∧
    posA.avgPx = posB.avgPx ∧ posA.cTime = posB.cTime := by
  decide

/-- Core margin bound of the part_001 sizing step for percentage-based
opening requests: the returned contract count's required margin never
exceeds available equity, and when even the minimum step is unaffordable
the action collapses to HOLD with the insufficient-funds marker. -/
theorem p1AllocCore_open_bound (cfg : CoinCfg) (price totalEq availEq q : ℚ)
    (pre : PreDec) (act0 : TAction)
    (hprice : 0 < price) (hcv : 0 < cfg.contractVal) (hmin : 0 < cfg.minSz)
    (hact : pre.action = TAction.BUY ∨ pre.action = TAction.SELL)
    (hreq : pre.sizeReq = SizeReq.pct q) :
    ((p1AllocCore cfg price totalEq availEq none pre act0).1 ≠ TAction.HOLD →
      (p1AllocCore cfg price totalEq availEq none pre act0).2.1 * cfg.contractVal * price /
        defaultLeverage ≤ availEq) ∧
    (availEq < cfg.contractVal * price / defaultLeverage * cfg.minSz →
      (p1AllocCore cfg price totalEq availEq none pre act0).1 = TAction.HOLD ∧
      (p1AllocCore cfg price totalEq availEq none pre act0).2.2 = ["资金不足"]) := by
  have h20 : (0:ℚ) < defaultLeverage := by norm_num [defaultLeverage]
  have hmpc : 0 < cfg.contractVal * price / defaultLeverage :=
    div_pos (mul_pos hcv hprice) h20
  have hfloor : ((⌊min (totalEq * (q/100)) availEq /
      (cfg.contractVal * price / defaultLeverage)⌋ : ℤ) : ℚ) *
      (cfg.contractVal * price / defaultLeverage) ≤ availEq := by
    calc ((⌊min (totalEq * (q/100)) availEq / (cfg.contractVal * price / defaultLeverage)⌋ : ℤ) : ℚ) *
        (cfg.contractVal * price / defaultLeverage)
        ≤ (min (totalEq * (q/100)) availEq / (cfg.contractVal * price / defaultLeverage)) *
          (cfg.contractVal * price / defaultLeverage) :=
          mul_le_mul_of_nonneg_right (Int.floor_le _) hmpc.le
      _ = min (totalEq * (q/100)) availEq := div_mul_cancel₀ _ (ne_of_gt hmpc)
      _ ≤ availEq := min_le_right _ _
  simp only [p1AllocCore, hreq, if_pos hact, Bool.false_eq_true, not_false_eq_true,
    if_true, if_false]
  split_ifs with g1 g2 g3 g4 g5 g6 g7 g8
  · refine ⟨fun hA => ?_, fun hA => ?_⟩
    · dsimp only
      exact le_of_eq_of_le (by ring) g2
    · exact absurd (lt_of_le_of_lt g2 hA) (lt_irrefl _)
  · refine ⟨fun hA => ?_, fun hA => ?_⟩
    · exact absurd rfl hA
    · exact absurd (lt_of_le_of_lt g2 hA) (lt_irrefl _)
  · refine ⟨fun hA => ?_, fun hA => ?_⟩
    · exact absurd rfl hA
    · exact absurd (lt_of_le_of_lt g2 hA) (lt_irrefl _)
  · exact ⟨fun hA => absurd g5.1 (lt_irrefl 0), fun hA => absurd g5.1 (lt_irrefl 0)⟩
  · exact ⟨fun hA => absurd rfl g6, fun hA => absurd rfl g6⟩
  · refine ⟨fun hA => ?_, fun hA => ?_⟩
    · exact absurd rfl hA
    · exact ⟨rfl, rfl⟩
  · refine ⟨fun hA => ?_, fun hA => ?_⟩
    · dsimp only
      exact le_of_eq_of_le (by ring) hfloor
    · have hle := le_of_not_lt g1
      have hstep : cfg.minSz * (cfg.contractVal * price / defaultLeverage) ≤ availEq :=
        le_trans (mul_le_mul_of_nonneg_right hle hmpc.le) hfloor
      have hx : cfg.contractVal * price / defaultLeverage * cfg.minSz ≤ availEq :=
        le_of_eq_of_le (by ring) hstep
      exact absurd (lt_of_le_of_lt hx hA) (lt_irrefl _)
  · refine ⟨fun hA => ?_, fun hA => ?_⟩
    · exact absurd rfl hA
    · have hle := le_of_not_lt g1
      have hstep : cfg.minSz * (cfg.contractVal * price / defaultLeverage) ≤ availEq :=
        le_trans (mul_le_mul_of_nonneg_right hle hmpc.le) hfloor
      have hx : cfg.contractVal * price / defaultLeverage * cfg.minSz ≤ availEq :=
        le_of_eq_of_le (by ring) hstep
      exact absurd (lt_of_le_of_lt hx hA) (lt_irrefl _)
  · refine ⟨fun hA => ?_, fun hA => ?_⟩
    · exact absurd rfl hA
    · have hle := le_of_not_lt g1
      have hstep : cfg.minSz * (cfg.contractVal * price / defaultLeverage) ≤ availEq :=
        le_trans (mul_le_mul_of_nonneg_right hle hmpc.le) hfloor
      have hx : cfg.contractVal * price / defaultLeverage * cfg.minSz ≤ availEq :=
        le_of_eq_of_le (by ring) hstep
      exact absurd (lt_of_le_of_lt hx hA) (lt_irrefl _)

/-- Claim C2: for percentage-based opening requests (no open position) the
contract count returned by the sizing step of `analyzeCoin`
(src/unnamed/part_001) always satisfies
`size * contractVal * price / leverage ≤ availEq`, and when even one
minimum-size step is unaffordable the decision collapses to HOLD carrying
the insufficient-funds marker `资金不足`. -/
theorem c2_open_margin_bounded (cfg : CoinCfg) (price totalEq availEq q : ℚ)
    (pre : PreDec) (d : Decision)
    (hprice : 0 < price) (hcv : 0 < cfg.contractVal) (hmin : 0 < cfg.minSz)
    (hact : pre.action = TAction.BUY ∨ pre.action = TAction.SELL)
    (hreq : pre.sizeReq = SizeReq.pct q) :
    ((p1SizeCalc cfg price totalEq availEq none pre d).action ≠ TAction.HOLD →
      (p1SizeCalc cfg price totalEq availEq none pre d).size * cfg.contractVal * price /
        defaultLeverage ≤ availEq) ∧
    (availEq < cfg.contractVal * price / defaultLeverage * cfg.minSz →
      (p1SizeCalc cfg price totalEq availEq none pre d).action = TAction.HOLD ∧
      "资金不足" ∈ (p1SizeCalc cfg price totalEq availEq none pre d).tags) := by
  have h := p1AllocCore_open_bound cfg price totalEq availEq q pre d.action
    hprice hcv hmin hact hreq
  refine ⟨fun hA => h.1 hA, fun hA => ⟨(h.2 hA).1, ?_⟩⟩
  show "资金不足" ∈ d.tags ++ (p1AllocCore cfg price totalEq availEq none pre d.action).2.2
  rw [(h.2 hA).2]
  simp

/-- Witness for C2: at price 3000 with 1000 USDT total and available equity,
a 10% BUY request sizes to 6 contracts whose margin 90 stays within the
available equity. -/
theorem c2_open_margin_bounded_witness :
    (p1SizeCalc cfgETH 3000 1000 1000 none preW2 dW2).action = TAction.BUY ∧
    (p1SizeCalc cfgETH 3000 1000 1000 none preW2 dW2).size = 6 ∧
    (p1SizeCalc cfgETH 3000 1000 1000 none preW2 dW2).size * cfgETH.contractVal * 3000 /
      defaultLeverage ≤ 1000 :=
  ⟨by decide, by decide,
    (c2_open_margin_bounded cfgETH 3000 1000 1000 10 preW2 dW2 (by decide)
      (by decide) (by decide) (Or.inl rfl) rfl).1 (by decide)⟩

/-- Counterexample for C2's universal reading: a stage-one take-profit
reduction (SELL 6 contracts against the long `posA`) is emitted with zero
available equity, and its notional margin 3.015 exceeds that equity — the
reduce path of the sizing step never consults `availEq`. -/
theorem c2_reduce_exceeds_available :
    (p1AnalyzeCoinLocal cfgETH cs1HNeut cs1HNeut (201/2) 101 0 (some posA)).action =
      TAction.SELL ∧
    (p1AnalyzeCoinLocal cfgETH cs1HNeut cs1HNeut (201/2) 101 0 (some posA)).size = 6 ∧
    ¬((p1AnalyzeCoinLocal cfgETH cs1HNeut cs1HNeut (201/2) 101 0 (some posA)).size *
        cfgETH.contractVal * (201/2) / defaultLeverage ≤ 0) := by
  decide

/-- A strict JS `>` between two possibly-undefined fields refutes `<=`. -/
theorem ogt_oleq_false (a b : Option ℚ) (h : ogt a b = true) : oleq a b = false := by
  cases a with
  | none => cases h
  | some x =>
    cases b with
    | none => cases h
    | some y =>
      simp only [ogt, decide_eq_true_eq] at h
      simp only [oleq, decide_eq_false_iff_not, not_le]
      exact h

/-- The backward crossover scan returns the cross index `k` when `k` is a
cross, nothing between `k` and the start index is, and the start index is
within the break distance. -/
theorem scanCrossAux_finds (f : ℕ → Bool) (last k : ℕ) (hk : 1 ≤ k)
    (hfk : f k = true) (habove : ∀ i, k < i → i ≤ last → f i = false)
    (hwin : last ≤ k + 5) :
    ∀ n, k + n ≤ last → scanCrossAux f last (k + n) = some k := by
  obtain ⟨k', rfl⟩ : ∃ k', k = k' + 1 := ⟨k - 1, (Nat.succ_pred_eq_of_pos hk).symm⟩
  intro n
  induction n with
  | zero =>
    intro _
    show scanCrossAux f last (k' + 1) = some (k' + 1)
    simp only [scanCrossAux, hfk, if_true]
  | succ m ih =>
    intro hle
    have hstep : k' + 1 + (m + 1) = (k' + 1 + m) + 1 := by omega
    rw [hstep]
    have h1 : f ((k' + 1 + m) + 1) = false := by
      have := habove (k' + 1 + (m + 1)) (by omega) (by omega)
      rwa [hstep] at this
    simp only [scanCrossAux, h1, Bool.false_eq_true, if_false]
    rw [if_neg (show ¬(7 < last - (k' + 1 + m + 1)) by omega)]
    exact ih (by omega)

/-- The long branch of `analyze3mEntry` fires on a clean golden cross at
`k` within the tolerance window while the gold zone persists to the latest
candle: the emitted decision is a BUY whose stop is the zone scan from
`k - 1`. -/
theorem entry_fires_long (cs : List Candle) (k : ℕ)
    (hlen : 100 ≤ cs.length) (hk1 : 1 ≤ k) (hkle : k ≤ cs.length - 1)
    (hwin : cs.length - 1 - k ≤ 5)
    (hcross : crossUpAt cs k = true)
    (hgold : goldSpan cs k = true)
    (htr : truthy (getC cs (cs.length - 1)).ema15 = true ∧
           truthy (getC cs (cs.length - 1)).ema60 = true) :
    analyze3mEntry cs Direction.UP =
      ⟨true, TAction.BUY, scanZoneLow cs (k - 1) 150 ((getC cs (k - 1)).l),
        "1H看涨 + 3m金叉 (容错范围内)", "金叉持稳"⟩ := by
  have hnl : ¬(cs.length < 100) := by omega
  simp only [goldSpan, List.all_eq_true] at hgold
  have hgoldAt : ∀ i, k ≤ i → i < cs.length →
      ogt (getC cs i).ema15 (getC cs i).ema60 = true := by
    intro i hki hil
    have h := hgold i (List.mem_range.mpr hil)
    simp only [Bool.or_eq_true, decide_eq_true_eq] at h
    rcases h with h | h
    · omega
    · exact h
  have hcg : ogt (getC cs (cs.length - 1)).ema15 (getC cs (cs.length - 1)).ema60 = true :=
    hgoldAt _ hkle (by omega)
  have hafter : ∀ i, k < i → i ≤ cs.length - 1 → crossUpAt cs i = false := by
    intro i hki hil
    have hz : ogt (getC cs (i - 1)).ema15 (getC cs (i - 1)).ema60 = true :=
      hgoldAt (i - 1) (by omega) (by omega)
    simp only [crossUpAt, ogt_oleq_false _ _ hz, Bool.false_and]
  have hscan : scanCrossAux (crossUpAt cs) (cs.length - 1) (cs.length - 1) = some k := by
    have h := scanCrossAux_finds (crossUpAt cs) (cs.length - 1) k hk1 hcross hafter
      (by omega) ((cs.length - 1) - k) (by omega)
    rwa [Nat.add_sub_cancel' hkle] at h
  simp only [analyze3mEntry]
  rw [if_neg hnl, if_neg (not_not_intro ⟨htr.1, htr.2⟩), if_pos hcg, hscan]
  dsimp only
  rw [if_pos (show cs.length - 1 - k ≤ 5 from hwin)]

/-- Claim C7: on a clean golden cross at `k` inside the 5-candle tolerance
window, with the gold zone persisting to the latest candle and its averages
populated, the entry detector fires a LONG signal (the stop emitted with it
is the preceding-zone scan, not checked against the current price). -/
theorem c7_golden_cross_fires_long (cs : List Candle) (k : ℕ)
    (hlen : 100 ≤ cs.length) (hk1 : 1 ≤ k) (hkle : k ≤ cs.length - 1)
    (hwin : cs.length - 1 - k ≤ 5)
    (hcross : crossUpAt cs k = true)
    (hgold : goldSpan cs k = true)
    (htr : truthy (getC cs (cs.length - 1)).ema15 = true ∧
           truthy (getC cs (cs.length - 1)).ema60 = true) :
    (analyze3mEntry cs Direction.UP).signal = true ∧
    (analyze3mEntry cs Direction.UP).action = TAction.BUY := by
  rw [entry_fires_long cs k hlen hk1 hkle hwin hcross hgold htr]
  exact ⟨rfl, rfl⟩

set_option maxHeartbeats 2000000 in
/-- Witness for C7: the golden-cross series `cs3mGold` (cross at index 98)
fires a BUY signal. -/
theorem c7_golden_cross_fires_long_witness :
    (analyze3mEntry cs3mGold Direction.UP).signal = true ∧
    (analyze3mEntry cs3mGold Direction.UP).action = TAction.BUY :=
  c7_golden_cross_fires_long cs3mGold 98 (by decide) (by decide) (by decide)
    (by decide) (by decide) (by decide) ⟨by decide, by decide⟩

set_option maxHeartbeats 2000000 in
/-- Counterexample for C7's stop clause: a golden-cross series analysed at
a ticker price of 95 emits a BUY whose stop 100 is NOT strictly below the
decision-time price - the engine never compares the two. -/
theorem c7_stop_not_below_price :
    (p1AnalyzeCoinLocal cfgETH cs1HUp csC7 95 1000 500 none).action = TAction.BUY ∧
    (p1AnalyzeCoinLocal cfgETH cs1HUp csC7 95 1000 500 none).sl = some 100 ∧
    ¬((100 : ℚ) < 95) := by
  decide

/-- `scanZoneLow` is the fold of the running-minimum step over the candles
`zoneList` says it visits. -/
theorem scanZoneLow_eq_fold (cs : List Candle) :
    ∀ fuel i acc, scanZoneLow cs i fuel acc =
      (zoneList cs i fuel).foldl (fun a c => if c.l < a then c.l else a) acc := by
  intro fuel
  induction fuel with
  | zero =>
    intro i acc
    cases i <;> rfl
  | succ f ih =>
    intro i acc
    cases i with
    | zero =>
      simp only [scanZoneLow, zoneList]
      by_cases h : oleq (getC cs 0).ema15 (getC cs 0).ema60 = true
      · rw [if_pos h, if_pos h]
        rfl
      · rw [if_neg h, if_neg h]
        rfl
    | succ i' =>
      simp only [scanZoneLow, zoneList]
      by_cases h : oleq (getC cs (i' + 1)).ema15 (getC cs (i' + 1)).ema60 = true
      · rw [if_pos h, if_pos h]
        simp only [List.foldl_cons]
        exact ih i' _
      · rw [if_neg h, if_neg h]
        rfl

/-- The running minimum of lows never exceeds its initial value. -/
theorem foldl_min_le_init : ∀ (L : List Candle) (acc : ℚ),
    L.foldl (fun a c => if c.l < a then c.l else a) acc ≤ acc := by
  intro L
  induction L with
  | nil => intro acc; exact le_refl acc
  | cons d L ih =>
    intro acc
    simp only [List.foldl_cons]
    refine le_trans (ih _) ?_
    by_cases h : d.l < acc
    · rw [if_pos h]
      exact le_of_lt h
    · rw [if_neg h]

/-- The running minimum of lows is below every visited low. -/
theorem foldl_min_le_mem : ∀ (L : List Candle) (acc : ℚ) (c : Candle), c ∈ L →
    L.foldl (fun a c => if c.l < a then c.l else a) acc ≤ c.l := by
  intro L
  induction L with
  | nil => intro acc c hc; cases hc
  | cons d L ih =>
    intro acc c hc
    simp only [List.foldl_cons]
    rcases List.mem_cons.mp hc with h | h
    · subst h
      refine le_trans (foldl_min_le_init _ _) ?_
      by_cases hlt : c.l < acc
      · rw [if_pos hlt]
      · rw [if_neg hlt]
        exact le_of_not_lt hlt
    · exact ih _ c h

/-- The running minimum of lows is attained: it is the initial value or the
low of some visited candle. -/
theorem foldl_min_attained : ∀ (L : List Candle) (acc : ℚ),
    L.foldl (fun a c => if c.l < a then c.l else a) acc = acc ∨
    ∃ c ∈ L, L.foldl (fun a c => if c.l < a then c.l else a) acc = c.l := by
  intro L
  induction L with
  | nil => intro acc; exact Or.inl rfl
  | cons d L ih =>
    intro acc
    simp only [List.foldl_cons]
    rcases ih (if d.l < acc then d.l else acc) with h | ⟨c, hc, h⟩
    · by_cases hlt : d.l < acc
      · exact Or.inr ⟨d, List.mem_cons_self d L, by rw [h, if_pos hlt]⟩
      · exact Or.inl (by rw [h, if_neg hlt])
    · exact Or.inr ⟨c, List.mem_cons_of_mem d hc, h⟩

/-- Claim C6 (amended): on a confirmed golden cross at `k` the initial
protective stop of the long entry is the MINIMUM of the lows over the
immediately preceding opposite-regime run (seeded with the low at `k - 1`):
it is below the seeding low and every visited low and coincides with one of
them - not the arithmetic mean, and no risk cap is applied. -/
theorem c6_stop_is_min_low (cs : List Candle) (k : ℕ)
    (hlen : 100 ≤ cs.length) (hk1 : 1 ≤ k) (hkle : k ≤ cs.length - 1)
    (hwin : cs.length - 1 - k ≤ 5)
    (hcross : crossUpAt cs k = true)
    (hgold : goldSpan cs k = true)
    (htr : truthy (getC cs (cs.length - 1)).ema15 = true ∧
           truthy (getC cs (cs.length - 1)).ema60 = true) :
    ((analyze3mEntry cs Direction.UP).sl ≤ (getC cs (k - 1)).l) ∧
    (∀ c ∈ zoneList cs (k - 1) 150, (analyze3mEntry cs Direction.UP).sl ≤ c.l) ∧
    ((analyze3mEntry cs Direction.UP).sl = (getC cs (k - 1)).l ∨
      ∃ c ∈ zoneList cs (k - 1) 150, (analyze3mEntry cs Direction.UP).sl = c.l) := by
  rw [entry_fires_long cs k hlen hk1 hkle hwin hcross hgold htr]
  dsimp only
  rw [scanZoneLow_eq_fold]
  exact ⟨foldl_min_le_init _ _, fun c hc => foldl_min_le_mem _ _ c hc,
    foldl_min_attained _ _⟩

set_option maxHeartbeats 2000000 in
/-- Witness for C6: on the series `csC6` (cross at 98, zone lows 100 and
90) the emitted stop is bounded by the seeding low and every zone low. -/
theorem c6_stop_is_min_low_witness :
    ((analyze3mEntry csC6 Direction.UP).sl ≤ (getC csC6 97).l) ∧
    (∀ c ∈ zoneList csC6 97 150, (analyze3mEntry csC6 Direction.UP).sl ≤ c.l) := by
  have h := c6_stop_is_min_low csC6 98 (by decide) (by decide) (by decide) (by decide)
    (by decide) (by decide) ⟨by decide, by decide⟩
  exact ⟨h.1, h.2.1⟩

set_option maxHeartbeats 2000000 in
/-- Counterexample for C6's mean clause: on `csC6` the emitted stop is the
zone's minimum low 90, not the arithmetic mean 95 of the zone lows. -/
theorem c6_stop_not_mean :
    (analyze3mEntry csC6 Direction.UP).sl = 90 ∧
    specMeanLow (zoneList csC6 97 150) = 95 ∧
    ((90 : ℚ) ≠ 95) := by
  decide
